import Mathlib

set_option maxRecDepth 40000

deriving instance DecidableEq for Except

/-!
Verification of the `cdecl` C-declaration pronouncer (src/cdecl.c) against its
specification.  The program is shallowly embedded: the process state (remaining
standard input, line/position cursor, the global `token`, the token `stack` and
the text written so far to standard output) is a record, every C function
becomes a Lean function on that record, and `fatal`/`assert` failures become an
error result carrying the stderr message and the stdout text produced so far.
Loops whose termination depends on the input stream take an explicit fuel
argument; wrappers supply `input.length + 1` fuel for the character-bounded
loops of the lexer (each iteration consumes one character, so this fuel is
never exhausted), while the token-driven loops of the resolver take caller fuel.
-/

/-- Token kinds, mirroring `enum token_type_t` (src/cdecl.c:33). -/
inductive TokenType where
  | TYPE
  | SPECIFIER
  | IDENTIFIER
  | ARRAY
  | POINTER
  | LBRACE
  | RBRACE
  | END
deriving DecidableEq

/-- Record for `struct token_t` (src/cdecl.c:69): a kind plus a union of a name buffer and
an array size.  Both union members are kept as separate fields; the C code
never reads the member it did not last write for the current kind. -/
structure Token where
  type : TokenType
  name : String
  size : Int
deriving DecidableEq

/-- Maximum length of the token that can be handled (src/cdecl.c:25). -/
def MAX_TOKEN_LEN : Nat := 64

/-- Maximum number of tokens that can be handled (src/cdecl.c:29). -/
def MAX_TOKENS : Nat := 128

/-- The process state: remaining stdin, the position cursor (`line`,
`position`), the global `token`, the token `stack` (top at the list head, so
`head` is the list length) and the stdout text produced so far. -/
structure St where
  input : List Char
  line : Nat
  pos : Int
  token : Token
  stack : List Token
  out : String
deriving DecidableEq

/-- Abnormal outcomes: `fatalMsg` is a call to `fatal` (message printed to
stderr, `exit(EXIT_FAILURE)`), `assertFail` is a failed `assert`, and `noFuel`
is the artifact of running a fueled loop out of fuel (not a program
behaviour). -/
inductive Err where
  | fatalMsg (msg : String) (out : String)
  | assertFail (out : String)
  | noFuel
deriving DecidableEq

/-- The message built by the `fatal_pos` macro (src/cdecl.c:118):
`"Line: %d, Position: %d: "` followed by the message proper. -/
def posMsg (l : Nat) (p : Int) (m : String) : String :=
  "Line: " ++ toString l ++ ", Position: " ++ toString p ++ ": " ++ m

/-- C `isspace` in the default locale (space, tab, newline, vertical tab,
form feed, carriage return). -/
def isspace (c : Char) : Bool :=
  c == ' ' || c == '\t' || c == '\n' || c == Char.ofNat 11 ||
  c == Char.ofNat 12 || c == '\r'

/-- C `isalnum(c) || c == '_'`, the characters `get_id` accepts. -/
def isIdChar (c : Char) : Bool :=
  c.isAlphanum || c == '_'

/-- Plain `getchar()`: consumes one character without touching the cursor
(used directly by `skip_spaces` and `get_token`, src/cdecl.c:220,294). -/
def getchar_raw (s : St) : Option Char × St :=
  match s.input with
  | [] => (none, s)
  | c :: rest => (some c, { s with input := rest })

/-- Wrapper `_getchar` (src/cdecl.c:177): `getchar` plus cursor bookkeeping — the
position is incremented per character, and a newline increments the line and
resets the position to 0. -/
def _getchar (s : St) : Option Char × St :=
  match s.input with
  | [] => (none, s)
  | c :: rest =>
    if c = '\n' then
      (some c, { s with input := rest, line := s.line + 1, pos := 0 })
    else
      (some c, { s with input := rest, pos := s.pos + 1 })

/-- Wrapper `_ungetchar` (src/cdecl.c:201): pushes the character back onto stdin and
decrements the position.  The `ungetc` failure path cannot occur in the model
(one-character pushback always succeeds). -/
def _ungetchar (c : Char) (s : St) : St :=
  { s with input := c :: s.input, pos := s.pos - 1 }

/-- Function `stack_push` (src/cdecl.c:127): fatal "Too long declaration" when the
stack already holds `MAX_TOKENS` tokens, otherwise push. -/
def stack_push (t : Token) (s : St) : Except Err St :=
  if MAX_TOKENS ≤ s.stack.length then
    .error (.fatalMsg "Too long declaration. Can't proceed.\n" s.out)
  else
    .ok { s with stack := t :: s.stack }

/-- Function `stack_pop` (src/cdecl.c:144): fatal "Stack underflow" on an empty stack,
otherwise pop and return the top token. -/
def stack_pop (s : St) : Except Err (Token × St) :=
  match s.stack with
  | [] => .error (.fatalMsg "Stack underflow. Invalid declaration.\n" s.out)
  | t :: rest => .ok (t, { s with stack := rest })

/-- Function `stack_is_empty` (src/cdecl.c:163): `head == 0`. -/
def stack_is_empty (s : St) : Bool :=
  s.stack.isEmpty

/-- Loop body of `skip_spaces` (src/cdecl.c:215): read with plain `getchar`
(no cursor update), stop at the first non-space by pushing it back with
`_ungetchar`; end of input is a fatal positioned "Unexpected end of file". -/
def skip_spaces_go : Nat → St → Except Err St
  | 0, _ => .error .noFuel
  | f + 1, s =>
    match getchar_raw s with
    | (none, s1) =>
      .error (.fatalMsg (posMsg s1.line s1.pos "Unexpected end of file\n") s1.out)
    | (some c, s1) =>
      if isspace c then skip_spaces_go f s1 else .ok (_ungetchar c s1)

/-- Function `skip_spaces` (src/cdecl.c:215); the loop consumes one character per
iteration, so `input.length + 1` fuel is never exhausted. -/
def skip_spaces (s : St) : Except Err St :=
  skip_spaces_go (s.input.length + 1) s

/-- Loop body of `get_id` (src/cdecl.c:239): `i` is the C counter, `acc` the
characters stored so far in the output buffer of the caller.  Each identifier character is
consumed with `_getchar`; the check `i++ >= MAX_TOKEN_LEN` fails fatally with
a positioned "Too long token" on the 65th identifier character; the first
non-identifier character is pushed back and terminates the token. -/
def get_id_go : Nat → Nat → List Char → St → Except Err (List Char × St)
  | 0, _, _, _ => .error .noFuel
  | f + 1, i, acc, s =>
    match _getchar s with
    | (none, s1) =>
      .error (.fatalMsg (posMsg s1.line s1.pos "Unexpected end of file\n") s1.out)
    | (some c, s1) =>
      if isIdChar c then
        if MAX_TOKEN_LEN ≤ i then
          .error (.fatalMsg
            (posMsg s1.line s1.pos "Too long token occured. Can't proceed.\n")
            s1.out)
        else
          get_id_go f (i + 1) (acc ++ [c]) s1
      else
        .ok (acc, _ungetchar c s1)

/-- Function `get_id` (src/cdecl.c:239), returning the characters written to the
buffer of the caller. -/
def get_id (s : St) : Except Err (List Char × St) :=
  get_id_go (s.input.length + 1) 0 [] s

/-- Loop body of `skip_to_char` (src/cdecl.c:271): consume with `_getchar`
until the wanted character appears; end of input is fatal. -/
def skip_to_char_go : Nat → Char → St → Except Err St
  | 0, _, _ => .error .noFuel
  | f + 1, endc, s =>
    match _getchar s with
    | (none, s1) =>
      .error (.fatalMsg (posMsg s1.line s1.pos "Unexpected end of file\n") s1.out)
    | (some c, s1) =>
      if c = endc then .ok s1 else skip_to_char_go f endc s1

/-- Function `skip_to_char` (src/cdecl.c:271). -/
def skip_to_char (endc : Char) (s : St) : Except Err St :=
  skip_to_char_go (s.input.length + 1) endc s

/-- The keyword classification of `get_token` (src/cdecl.c:310-327): the
`strcmp` chain over the nine type keywords, then the two specifier keywords,
anything else being an identifier. -/
def classify (name : String) : TokenType :=
  if name = "int" ∨ name = "char" ∨ name = "void" ∨ name = "signed" ∨
     name = "unsigned" ∨ name = "short" ∨ name = "long" ∨ name = "float" ∨
     name = "double" then
    .TYPE
  else if name = "const" ∨ name = "volatile" then
    .SPECIFIER
  else
    .IDENTIFIER

/-- Function `get_token` (src/cdecl.c:289): skip spaces, read one character with plain
`getchar` followed by a manual `++position`, then dispatch.  Note the final
fall-through: a character that is none of `;`, alphabetic, `[`, `(`, `)`, `*`
leaves the global `token` untouched and returns normally. -/
def get_token (s0 : St) : Except Err St :=
  match skip_spaces s0 with
  | .error e => .error e
  | .ok s =>
    match getchar_raw s with
    | (none, s1) =>
      let s2 := { s1 with pos := s1.pos + 1 }
      .error (.fatalMsg (posMsg s2.line s2.pos "Unexpected end of file\n") s2.out)
    | (some c, s1) =>
      let s2 := { s1 with pos := s1.pos + 1 }
      if c = ';' then
        .ok { s2 with token := { s2.token with type := .END } }
      else if c.isAlpha then
        match get_id (_ungetchar c s2) with
        | .error e => .error e
        | .ok (name, s3) =>
          let s4 := { s3 with token := { s3.token with name := String.mk name } }
          .ok { s4 with token := { s4.token with type := classify s4.token.name } }
      else if c = '[' then
        match skip_to_char ']' s2 with
        | .error e => .error e
        | .ok s3 =>
          .ok { s3 with token := { s3.token with type := .ARRAY, size := -1 } }
      else if c = '(' then
        .ok { s2 with token := { s2.token with type := .LBRACE } }
      else if c = ')' then
        .ok { s2 with token := { s2.token with type := .RBRACE } }
      else if c = '*' then
        .ok { s2 with token := { s2.token with type := .POINTER } }
      else
        .ok s2

/-- Function `pronounce_token` (src/cdecl.c:349) as the fragment printed for a token;
`none` is the `assert(0)` default branch, reached only for `IDENTIFIER`. -/
def pronounce_token (t : Token) : Option String :=
  match t.type with
  | .TYPE => some (t.name ++ " ")
  | .SPECIFIER => if t.name = "const" then some "read-only " else some (t.name ++ " ")
  | .ARRAY => some "array of "
  | .POINTER => some "pointer to "
  | .LBRACE => some "function returning "
  | .RBRACE => some ""
  | .END => some ""
  | .IDENTIFIER => none

/-- Appends the fragment for `t` to stdout, failing like `assert(0)` when
`pronounce_token` has no case for the token. -/
def emit_token (t : Token) (s : St) : Except Err St :=
  match pronounce_token t with
  | some frag => .ok { s with out := s.out ++ frag }
  | none => .error (.assertFail s.out)

/-- Phase 1 of `pronounce` (src/cdecl.c:390-393): read tokens and push each
onto the stack until an `IDENTIFIER` arrives. -/
def pronounce_collect : Nat → St → Except Err St
  | 0, _ => .error .noFuel
  | f + 1, s =>
    match get_token s with
    | .error e => .error e
    | .ok s1 =>
      match stack_push s1.token s1 with
      | .error e => .error e
      | .ok s2 =>
        if s2.token.type = .IDENTIFIER then .ok s2 else pronounce_collect f s2

/-- The parameter-list skip of the right pass (src/cdecl.c:413-415): read
tokens until an `RBRACE` arrives. -/
def pronounce_skip_args : Nat → St → Except Err St
  | 0, _ => .error .noFuel
  | f + 1, s =>
    match get_token s with
    | .error e => .error e
    | .ok s1 =>
      if s1.token.type = .RBRACE then .ok s1 else pronounce_skip_args f s1

/-- The right pass of `pronounce` (src/cdecl.c:407-421): read a token,
pronounce it, on `LBRACE` skip the parameter list and fake the token type back
to `LBRACE`, and loop until the token is `END` or `RBRACE`. -/
def pronounce_right : Nat → St → Except Err St
  | 0, _ => .error .noFuel
  | f + 1, s =>
    match get_token s with
    | .error e => .error e
    | .ok s1 =>
      match emit_token s1.token s1 with
      | .error e => .error e
      | .ok s2 =>
        let step : Except Err St :=
          if s2.token.type = .LBRACE then
            match pronounce_skip_args f s2 with
            | .error e => .error e
            | .ok s3 => .ok { s3 with token := { s3.token with type := .LBRACE } }
          else
            .ok s2
        match step with
        | .error e => .error e
        | .ok s4 =>
          if s4.token.type = .END ∨ s4.token.type = .RBRACE then .ok s4
          else pronounce_right f s4

/-- The left pass of `pronounce` (src/cdecl.c:431-440): pop a token, pronounce
it unless it is an `LBRACE`, and loop while the stack is non-empty and the
popped token was not an `LBRACE`. -/
def pronounce_left : Nat → St → Except Err St
  | 0, _ => .error .noFuel
  | f + 1, s =>
    match stack_pop s with
    | .error e => .error e
    | .ok (t, s1) =>
      match (if t.type = .LBRACE then .ok s1 else emit_token t s1 : Except Err St) with
      | .error e => .error e
      | .ok s2 =>
        if ¬stack_is_empty s2 ∧ ¬t.type = .LBRACE then pronounce_left f s2
        else .ok s2

/-- The alternating resolution loop of `pronounce` (src/cdecl.c:404-450),
returning the final `right_finished`/`left_finished` flags with the state:
run the right pass unless finished (marking it finished when the stopping
token was `END`), run the left pass unless finished (marking it finished when
the stack became empty), and stop only when both flags hold. -/
def pronounce_loop : Nat → Bool → Bool → St → Except Err (Bool × Bool × St)
  | 0, _, _, _ => .error .noFuel
  | f + 1, rf, lf, s =>
    let rstep : Except Err (Bool × St) :=
      if rf then .ok (rf, s)
      else
        match pronounce_right f s with
        | .error e => .error e
        | .ok s1 => .ok (s1.token.type = .END, s1)
    match rstep with
    | .error e => .error e
    | .ok (rf1, s1) =>
      let lstep : Except Err (Bool × St) :=
        if lf then .ok (lf, s1)
        else
          match pronounce_left f s1 with
          | .error e => .error e
          | .ok s2 => .ok (stack_is_empty s2, s2)
      match lstep with
      | .error e => .error e
      | .ok (lf1, s2) =>
        if lf1 && rf1 then .ok (rf1, lf1, s2)
        else pronounce_loop f rf1 lf1 s2

/-- Function `pronounce` (src/cdecl.c:387): collect the left tokens, pop the identifier
and print `"<name> is "`, run the alternating resolution, print the final
newline. -/
def pronounce (fuel : Nat) (s : St) : Except Err St :=
  match pronounce_collect fuel s with
  | .error e => .error e
  | .ok s1 =>
    match stack_pop s1 with
    | .error e => .error e
    | .ok (_, s2) =>
      let s3 := { s2 with out := s2.out ++ s2.token.name ++ " is " }
      match pronounce_loop fuel false false s3 with
      | .error e => .error e
      | .ok (_, _, s4) => .ok { s4 with out := s4.out ++ "\n" }

/-- The initial process state for a given stdin: line 1, position 0, the
zero-initialised global `token` (`TYPE` is enumerator 0, empty name buffer),
an empty stack and no output. -/
def initSt (inp : String) : St :=
  { input := inp.toList
  , line := 1
  , pos := 0
  , token := { type := .TYPE, name := "", size := 0 }
  , stack := []
  , out := "" }

/-- Observable outcome of a whole process run: stdout, stderr and the exit
status. -/
structure Outcome where
  stdout : String
  stderr : String
  exit : Nat
deriving DecidableEq

/-- Function `main` (src/cdecl.c:456): run `pronounce` on stdin; successful completion
exits 0, `fatal` prints its message on stderr and exits `EXIT_FAILURE` (1), a
failed `assert` aborts (exit 134 under the default SIGABRT disposition).
`none` is returned only on fuel exhaustion, which is not a program
behaviour. -/
def run (fuel : Nat) (inp : String) : Option Outcome :=
  match pronounce fuel (initSt inp) with
  | .ok s => some ⟨s.out, "", 0⟩
  | .error (.fatalMsg m o) => some ⟨o, m, 1⟩
  | .error (.assertFail o) => some ⟨o, "", 134⟩
  | .error .noFuel => none


/-! ### Basic lemmas -/

theorem stack_is_empty_iff (s : St) : stack_is_empty s = true ↔ s.stack = [] := by
  simp [stack_is_empty, List.isEmpty_iff]

theorem getchar_raw_some {s s1 : St} {c : Char} (h : getchar_raw s = (some c, s1)) :
    s1.stack = s.stack ∧ s1.token = s.token ∧ s1.out = s.out ∧
    s1.line = s.line ∧ s1.pos = s.pos ∧ s.input = c :: s1.input := by
  unfold getchar_raw at h
  split at h
  · simp at h
  · rename_i c' rest hi
    simp only [Prod.mk.injEq, Option.some.injEq] at h
    obtain ⟨hc, hs⟩ := h
    subst hc
    rw [← hs]
    simp [hi]

theorem _getchar_some {s s1 : St} {c : Char} (h : _getchar s = (some c, s1)) :
    s1.stack = s.stack ∧ s1.token = s.token ∧ s1.out = s.out ∧
    s.input = c :: s1.input := by
  unfold _getchar at h
  split at h
  · simp at h
  · rename_i c' rest hi
    split at h <;>
    · simp only [Prod.mk.injEq, Option.some.injEq] at h
      obtain ⟨hc, hs⟩ := h
      subst hc
      rw [← hs]
      simp [hi]

theorem skip_spaces_go_stack :
    ∀ f s s', skip_spaces_go f s = .ok s' →
      s'.stack = s.stack ∧ s'.token = s.token ∧ s'.out = s.out := by
  intro f
  induction f with
  | zero => intro s s' h; simp [skip_spaces_go] at h
  | succ f ih =>
    intro s s' h
    simp only [skip_spaces_go] at h
    split at h
    · simp at h
    · rename_i c s1 heq
      obtain ⟨h1, h2, h3, _, _, _⟩ := getchar_raw_some heq
      split at h
      · obtain ⟨g1, g2, g3⟩ := ih _ _ h
        exact ⟨g1.trans h1, g2.trans h2, g3.trans h3⟩
      · simp only [Except.ok.injEq] at h
        subst h
        exact ⟨h1, h2, h3⟩

theorem get_id_go_stack :
    ∀ f i acc s r, get_id_go f i acc s = .ok r →
      r.2.stack = s.stack ∧ r.2.token = s.token ∧ r.2.out = s.out := by
  intro f
  induction f with
  | zero => intro i acc s r h; simp [get_id_go] at h
  | succ f ih =>
    intro i acc s r h
    simp only [get_id_go] at h
    split at h
    · simp at h
    · rename_i c s1 heq
      obtain ⟨h1, h2, h3, _⟩ := _getchar_some heq
      split at h
      · split at h
        · simp at h
        · obtain ⟨g1, g2, g3⟩ := ih _ _ _ _ h
          exact ⟨g1.trans h1, g2.trans h2, g3.trans h3⟩
      · simp only [Except.ok.injEq] at h
        subst h
        exact ⟨h1, h2, h3⟩

theorem skip_to_char_go_stack :
    ∀ f endc s s', skip_to_char_go f endc s = .ok s' →
      s'.stack = s.stack ∧ s'.token = s.token ∧ s'.out = s.out := by
  intro f
  induction f with
  | zero => intro endc s s' h; simp [skip_to_char_go] at h
  | succ f ih =>
    intro endc s s' h
    simp only [skip_to_char_go] at h
    split at h
    · simp at h
    · rename_i c s1 heq
      obtain ⟨h1, h2, h3, _⟩ := _getchar_some heq
      split at h
      · simp only [Except.ok.injEq] at h
        subst h
        exact ⟨h1, h2, h3⟩
      · obtain ⟨g1, g2, g3⟩ := ih _ _ _ h
        exact ⟨g1.trans h1, g2.trans h2, g3.trans h3⟩

theorem get_token_stack :
    ∀ s s', get_token s = .ok s' → s'.stack = s.stack ∧ s'.out = s.out := by
  intro s s' h
  simp only [get_token] at h
  split at h
  · simp at h
  · rename_i sA hss
    obtain ⟨pA, _, qA⟩ := skip_spaces_go_stack _ _ _ hss
    split at h
    · simp at h
    · rename_i c s1 heq
      obtain ⟨p1, _, q1, _, _, _⟩ := getchar_raw_some heq
      split at h
      · simp only [Except.ok.injEq] at h
        subst h
        exact ⟨p1.trans pA, q1.trans qA⟩
      · split at h
        · split at h
          · simp at h
          · rename_i p hid
            obtain ⟨name, s3⟩ := p
            simp only [Except.ok.injEq] at h
            subst h
            obtain ⟨g1, _, g3⟩ := get_id_go_stack _ _ _ _ _ hid
            simp only [_ungetchar] at g1 g3
            exact ⟨g1.trans (p1.trans pA), g3.trans (q1.trans qA)⟩
        · split at h
          · split at h
            · simp at h
            · rename_i s3 hsk
              simp only [Except.ok.injEq] at h
              subst h
              obtain ⟨g1, _, g3⟩ := skip_to_char_go_stack _ _ _ _ hsk
              exact ⟨g1.trans (p1.trans pA), g3.trans (q1.trans qA)⟩
          · split at h
            · simp only [Except.ok.injEq] at h
              subst h
              exact ⟨p1.trans pA, q1.trans qA⟩
            · split at h
              · simp only [Except.ok.injEq] at h
                subst h
                exact ⟨p1.trans pA, q1.trans qA⟩
              · split at h
                · simp only [Except.ok.injEq] at h
                  subst h
                  exact ⟨p1.trans pA, q1.trans qA⟩
                · simp only [Except.ok.injEq] at h
                  subst h
                  exact ⟨p1.trans pA, q1.trans qA⟩

theorem emit_token_stack {t : Token} {s s' : St} (h : emit_token t s = .ok s') :
    s'.stack = s.stack := by
  unfold emit_token at h
  split at h
  · simp only [Except.ok.injEq] at h
    subst h
    rfl
  · simp at h

theorem pronounce_skip_args_stack :
    ∀ f s s', pronounce_skip_args f s = .ok s' → s'.stack = s.stack := by
  intro f
  induction f with
  | zero => intro s s' h; simp [pronounce_skip_args] at h
  | succ f ih =>
    intro s s' h
    simp only [pronounce_skip_args] at h
    split at h
    · simp at h
    · rename_i s1 hgt
      have h1 := (get_token_stack _ _ hgt).1
      split at h
      · simp only [Except.ok.injEq] at h
        subst h
        exact h1
      · exact (ih _ _ h).trans h1

theorem pronounce_right_stack :
    ∀ f s s', pronounce_right f s = .ok s' → s'.stack = s.stack := by
  intro f
  induction f with
  | zero => intro s s' h; simp [pronounce_right] at h
  | succ f ih =>
    intro s s' h
    simp only [pronounce_right] at h
    split at h
    · simp at h
    · rename_i s1 hgt
      have h1 := (get_token_stack _ _ hgt).1
      split at h
      · simp at h
      · rename_i s2 hem
        have h2 := emit_token_stack hem
        split at h
        · simp at h
        · rename_i s4 hstep
          have h4 : s4.stack = s2.stack := by
            split at hstep
            · split at hstep
              · simp at hstep
              · rename_i s3 hsk
                simp only [Except.ok.injEq] at hstep
                subst hstep
                have hg := pronounce_skip_args_stack _ _ _ hsk
                exact hg
            · simp only [Except.ok.injEq] at hstep
              subst hstep
              rfl
          split at h
          · simp only [Except.ok.injEq] at h
            subst h
            exact h4.trans (h2.trans h1)
          · exact (ih _ _ h).trans (h4.trans (h2.trans h1))

theorem pronounce_loop_ok :
    ∀ f rf lf s r, pronounce_loop f rf lf s = .ok r →
      (r.1 = true ∧ r.2.1 = true) ∧ ((lf = true → s.stack = []) → r.2.2.stack = []) := by
  intro f
  induction f with
  | zero => intro rf lf s r h; simp [pronounce_loop] at h
  | succ f ih =>
    intro rf lf s r h
    simp only [pronounce_loop] at h
    split at h
    · simp at h
    · rename_i rf1 s1 hr
      have hs1 : s1.stack = s.stack := by
        split at hr
        · simp only [Except.ok.injEq, Prod.mk.injEq] at hr
          rw [← hr.2]
        · split at hr
          · simp at hr
          · rename_i s1' hrp
            simp only [Except.ok.injEq, Prod.mk.injEq] at hr
            rw [← hr.2]
            exact pronounce_right_stack _ _ _ hrp
      split at h
      · simp at h
      · rename_i lf1 s2 hl
        have hinv : (lf = true → s.stack = []) → (lf1 = true → s2.stack = []) := by
          intro hpre hlf1
          split at hl
          · rename_i hlf
            simp only [Except.ok.injEq, Prod.mk.injEq] at hl
            rw [← hl.2, hs1]
            exact hpre (hl.1.trans hlf1)
          · split at hl
            · simp at hl
            · rename_i s2' hlp
              simp only [Except.ok.injEq, Prod.mk.injEq] at hl
              rw [← hl.2]
              exact (stack_is_empty_iff _).1 (hl.1.trans hlf1)
        split at h
        · rename_i hguard
          simp only [Except.ok.injEq] at h
          subst h
          simp only [Bool.and_eq_true] at hguard
          exact ⟨⟨hguard.2, hguard.1⟩, fun hpre => hinv hpre hguard.1⟩
        · have hrec := ih _ _ _ _ h
          exact ⟨hrec.1, fun hpre => hrec.2 (hinv hpre)⟩

/-- C2: for every input accepted without a fatal error, when `pronounce`
completes the token stack is empty (`head == 0`, i.e. `stack_is_empty`), and
the resolution loop returns only with both `right_finished` and
`left_finished` set. -/
theorem C2_resolution_invariant :
    (∀ fuel s s', pronounce fuel s = .ok s' → stack_is_empty s' = true) ∧
    (∀ fuel rf lf s r, pronounce_loop fuel rf lf s = .ok r →
      r.1 = true ∧ r.2.1 = true) := by
  constructor
  · intro fuel s s' h
    simp only [pronounce] at h
    split at h
    · simp at h
    · rename_i s1 hc
      split at h
      · simp at h
      · rename_i p hpop
        split at h
        · simp at h
        · rename_i a b s4 hloop
          simp only [Except.ok.injEq] at h
          subst h
          rw [stack_is_empty_iff]
          have hok := pronounce_loop_ok _ _ _ _ _ hloop
          exact hok.2 (by simp)
  · intro fuel rf lf s r h
    exact (pronounce_loop_ok _ _ _ _ _ h).1

theorem C2_resolution_invariant_witness :
    (∃ s', pronounce 30 (initSt "int x;") = .ok s' ∧ stack_is_empty s' = true) ∧
    (∃ r, pronounce_loop 10 false false
        ⟨[';'], 1, 6, ⟨.IDENTIFIER, "x", 0⟩, [⟨.TYPE, "int", 0⟩], "x is "⟩ = .ok r ∧
      r.1 = true ∧ r.2.1 = true) := by
  constructor
  · have hs : (pronounce 30 (initSt "int x;")).toOption.isSome = true := by decide
    cases h : pronounce 30 (initSt "int x;") with
    | error e => rw [h] at hs; simp [Except.toOption] at hs
    | ok s => exact ⟨s, rfl, C2_resolution_invariant.1 30 _ s h⟩
  · have hs : (pronounce_loop 10 false false
        ⟨[';'], 1, 6, ⟨.IDENTIFIER, "x", 0⟩, [⟨.TYPE, "int", 0⟩], "x is "⟩).toOption.isSome = true := by
      decide
    cases h : pronounce_loop 10 false false
        ⟨[';'], 1, 6, ⟨.IDENTIFIER, "x", 0⟩, [⟨.TYPE, "int", 0⟩], "x is "⟩ with
    | error e => rw [h] at hs; simp [Except.toOption] at hs
    | ok r =>
      obtain ⟨h1, h2⟩ := C2_resolution_invariant.2 10 false false _ r h
      exact ⟨r, rfl, h1, h2⟩

theorem skip_spaces_go_spec :
    ∀ ws f (s : St) c rest, ws.length < f → s.input = ws ++ c :: rest →
      (∀ x ∈ ws, isspace x = true) → isspace c = false →
      skip_spaces_go f s = .ok { s with input := c :: rest, pos := s.pos - 1 } := by
  intro ws
  induction ws with
  | nil =>
    intro f s c rest hf hi hws hc
    match f, hf with
    | f + 1, _ =>
      simp only [skip_spaces_go, getchar_raw, hi, List.nil_append]
      rw [if_neg (by simp [hc])]
      rfl
  | cons w ws ih =>
    intro f s c rest hf hi hws hc
    match f, hf with
    | f + 1, hf =>
      simp only [skip_spaces_go, getchar_raw, hi, List.cons_append]
      rw [if_pos (hws w (List.mem_cons_self _ _))]
      have := ih f { s with input := ws ++ c :: rest } c rest
        (by simpa using Nat.lt_of_succ_lt_succ hf) rfl
        (fun x hx => hws x (List.mem_cons_of_mem _ hx)) hc
      exact this

theorem skip_spaces_spec {s : St} {ws : List Char} {c : Char} {rest : List Char}
    (hi : s.input = ws ++ c :: rest) (hws : ∀ x ∈ ws, isspace x = true)
    (hc : isspace c = false) :
    skip_spaces s = .ok { s with input := c :: rest, pos := s.pos - 1 } := by
  unfold skip_spaces
  exact skip_spaces_go_spec ws _ s c rest
    (by simp [hi]; omega) hi hws hc

/-- C9: when the first non-whitespace character is none of `;`, a letter, `[`,
`(`, `)`, `*`, `get_token` consumes it and returns normally without touching
the global `token` (or any other component of the state but the input and,
transiently, the position), so the caller will process the kind and payload of
the previous token again. -/
theorem C9_unrecognized_char_keeps_token :
    ∀ (s : St) (ws : List Char) (c : Char) (rest : List Char),
      s.input = ws ++ c :: rest →
      (∀ x ∈ ws, isspace x = true) →
      isspace c = false → c ≠ ';' → c.isAlpha = false →
      c ≠ '[' → c ≠ '(' → c ≠ ')' → c ≠ '*' →
      get_token s = .ok { s with input := rest } := by
  intro s ws c rest hi hws hsp hsemi halpha hlb hpar hrpar hstar
  simp only [get_token]
  rw [skip_spaces_spec hi hws hsp]
  simp only [getchar_raw]
  rw [if_neg hsemi, if_neg (by simp [halpha]), if_neg hlb, if_neg hpar,
    if_neg hrpar, if_neg hstar]
  have hpp : s.pos - 1 + 1 = s.pos := by omega
  simp [hpp]

theorem C9_unrecognized_char_keeps_token_witness :
    get_token ⟨[' ', '+', ';'], 1, 0, ⟨.POINTER, "q", 0⟩, [], "o"⟩ =
      .ok ⟨[';'], 1, 0, ⟨.POINTER, "q", 0⟩, [], "o"⟩ := by
  have := C9_unrecognized_char_keeps_token
    ⟨[' ', '+', ';'], 1, 0, ⟨.POINTER, "q", 0⟩, [], "o"⟩
    [' '] '+' [';'] (by decide) (by decide) (by decide) (by decide)
    (by decide) (by decide) (by decide) (by decide) (by decide)
  exact this

theorem _getchar_cons {s : St} {c : Char} {rest : List Char}
    (hi : s.input = c :: rest) :
    ∃ s1, _getchar s = (some c, s1) ∧ s1.input = rest ∧ s1.stack = s.stack ∧
      s1.token = s.token ∧ s1.out = s.out := by
  by_cases hn : c = '\n'
  · refine ⟨{ s with input := rest, line := s.line + 1, pos := 0 }, ?_, rfl, rfl, rfl, rfl⟩
    simp [_getchar, hi, hn]
  · refine ⟨{ s with input := rest, pos := s.pos + 1 }, ?_, rfl, rfl, rfl, rfl⟩
    simp [_getchar, hi, hn]

theorem get_id_go_ok :
    ∀ (w : List Char) f i acc (s : St) d rest, s.input = w ++ d :: rest →
      (∀ x ∈ w, isIdChar x = true) → isIdChar d = false →
      i + w.length ≤ MAX_TOKEN_LEN → w.length < f →
      ∃ s', get_id_go f i acc s = .ok (acc ++ w, s') ∧ s'.input = d :: rest := by
  intro w
  induction w with
  | nil =>
    intro f i acc s d rest hi hw hd hlen hf
    match f, hf with
    | f + 1, _ =>
      obtain ⟨s1, hg, hin, _, _, _⟩ := _getchar_cons (by simpa using hi)
      simp only [get_id_go, hg]
      rw [if_neg (by simp [hd])]
      refine ⟨_ungetchar d s1, ?_, ?_⟩
      · simp
      · simp [_ungetchar, hin]
  | cons c w' ih =>
    intro f i acc s d rest hi hw hd hlen hf
    match f, hf with
    | f + 1, hf =>
      obtain ⟨s1, hg, hin, _, _, _⟩ :=
        @_getchar_cons s c (w' ++ d :: rest) (by simpa using hi)
      have hc : isIdChar c = true := hw c (List.mem_cons_self _ _)
      simp only [get_id_go, hg]
      rw [if_pos hc, if_neg (by simp only [MAX_TOKEN_LEN] at hlen ⊢; simp at hlen; omega)]
      obtain ⟨s', h1, h2⟩ := ih f (i + 1) (acc ++ [c]) s1 d rest hin
        (fun x hx => hw x (List.mem_cons_of_mem _ hx)) hd
        (by simp only [MAX_TOKEN_LEN] at hlen ⊢; simp at hlen ⊢; omega)
        (by simpa using Nat.lt_of_succ_lt_succ hf)
      refine ⟨s', ?_, h2⟩
      rw [h1]
      simp

theorem get_id_go_overflow :
    ∀ (w : List Char) f i acc (s : St) rest, s.input = w ++ rest →
      (∀ x ∈ w, isIdChar x = true) →
      i + w.length = MAX_TOKEN_LEN + 1 → i ≤ MAX_TOKEN_LEN → w.length ≤ f →
      ∃ l p o, get_id_go f i acc s = .error
        (.fatalMsg (posMsg l p "Too long token occured. Can't proceed.\n") o) := by
  intro w
  induction w with
  | nil =>
    intro f i acc s rest hi hw hsum hile hf
    exfalso
    simp only [MAX_TOKEN_LEN] at hsum hile
    simp at hsum
    omega
  | cons c w' ih =>
    intro f i acc s rest hi hw hsum hile hf
    match f, hf with
    | f + 1, hf =>
      obtain ⟨s1, hg, hin, _, _, _⟩ :=
        @_getchar_cons s c (w' ++ rest) (by simpa using hi)
      have hc : isIdChar c = true := hw c (List.mem_cons_self _ _)
      simp only [get_id_go, hg]
      rw [if_pos hc]
      by_cases hmax : MAX_TOKEN_LEN ≤ i
      · rw [if_pos hmax]
        exact ⟨s1.line, s1.pos, s1.out, rfl⟩
      · rw [if_neg hmax]
        exact ih f (i + 1) (acc ++ [c]) s1 rest hin
          (fun x hx => hw x (List.mem_cons_of_mem _ hx))
          (by simp only [MAX_TOKEN_LEN] at hsum ⊢; simp at hsum ⊢; omega)
          (by simp only [MAX_TOKEN_LEN] at hmax ⊢; omega)
          (by simpa using Nat.le_of_succ_le_succ hf)

/-- C5: a maximal identifier run of exactly `MAX_TOKEN_LEN` (64) characters is
accepted by `get_id`, while a run of 65 identifier characters hits the fatal
fatal too-long-token error (printed with line/position
context by `fatal_pos`); at whole-program level such an input terminates the
process with a non-zero status. -/
theorem C5_token_length_boundary :
    (∀ (s : St) (w : List Char) (d : Char) (rest : List Char),
      s.input = w ++ d :: rest →
      (∀ x ∈ w, isIdChar x = true) → isIdChar d = false →
      w.length = MAX_TOKEN_LEN →
      ∃ s', get_id s = .ok (w, s') ∧ s'.input = d :: rest) ∧
    (∀ (s : St) (w : List Char) (rest : List Char),
      s.input = w ++ rest →
      (∀ x ∈ w, isIdChar x = true) →
      w.length = MAX_TOKEN_LEN + 1 →
      ∃ l p o, get_id s = .error
        (.fatalMsg (posMsg l p "Too long token occured. Can't proceed.\n") o)) ∧
    (run 20 (String.mk (List.replicate 65 'a' ++ [';']))).map Outcome.exit = some 1 ∧
    (run 20 (String.mk (List.replicate 65 'a' ++ [';']))).map Outcome.stderr =
      some (posMsg 1 64 "Too long token occured. Can't proceed.\n") := by
  refine ⟨?_, ?_, by decide, by decide⟩
  · intro s w d rest hi hw hd hlen
    unfold get_id
    exact get_id_go_ok w (s.input.length + 1) 0 [] s d rest hi hw hd
      (by omega) (by simp [hi]; omega)
  · intro s w rest hi hw hlen
    unfold get_id
    exact get_id_go_overflow w (s.input.length + 1) 0 [] s rest hi hw
      (by omega) (by omega) (by simp [hi]; omega)

theorem C5_token_length_boundary_witness :
    (∃ s', get_id (initSt (String.mk (List.replicate 64 'a' ++ [';']))) =
        .ok (List.replicate 64 'a', s') ∧ s'.input = [';']) ∧
    (∃ l p o, get_id (initSt (String.mk (List.replicate 65 'a'))) = .error
        (.fatalMsg (posMsg l p "Too long token occured. Can't proceed.\n") o)) := by
  constructor
  · exact C5_token_length_boundary.1
      (initSt (String.mk (List.replicate 64 'a' ++ [';'])))
      (List.replicate 64 'a') ';' [] (by decide) (by decide) (by decide) (by decide)
  · exact C5_token_length_boundary.2.1
      (initSt (String.mk (List.replicate 65 'a')))
      (List.replicate 65 'a') [] (by decide) (by decide) (by decide)

theorem isAlpha_not_isspace {c : Char} (h : c.isAlpha = true) : isspace c = false := by
  by_contra hc
  have hc' : isspace c = true := by revert hc; cases isspace c <;> simp
  simp only [isspace, Bool.or_eq_true, beq_iff_eq] at hc'
  rcases hc' with ((((h1 | h1) | h1) | h1) | h1) | h1 <;> subst h1 <;>
    exact absurd h (by decide)

/-- C3: for a maximal run of identifier characters starting with a letter, the
token kind computed by `get_token` is exactly `classify` of the run's text,
and `classify` maps the nine type keywords to `TYPE`, `const`/`volatile` to
`SPECIFIER`, and everything else to `IDENTIFIER`. -/
theorem C3_keyword_classification :
    (∀ name : String,
      (classify name = .TYPE ↔
        (name = "int" ∨ name = "char" ∨ name = "void" ∨ name = "signed" ∨
         name = "unsigned" ∨ name = "short" ∨ name = "long" ∨ name = "float" ∨
         name = "double")) ∧
      (classify name = .SPECIFIER ↔ (name = "const" ∨ name = "volatile")) ∧
      (classify name = .IDENTIFIER ↔
        (¬(name = "int" ∨ name = "char" ∨ name = "void" ∨ name = "signed" ∨
           name = "unsigned" ∨ name = "short" ∨ name = "long" ∨ name = "float" ∨
           name = "double") ∧ ¬(name = "const" ∨ name = "volatile")))) ∧
    (∀ (s : St) (c : Char) (w' : List Char) (d : Char) (rest : List Char),
      s.input = c :: (w' ++ d :: rest) →
      c.isAlpha = true → (∀ x ∈ c :: w', isIdChar x = true) →
      isIdChar d = false → (c :: w').length ≤ MAX_TOKEN_LEN →
      ∃ s', get_token s = .ok s' ∧
        s'.token.name = String.mk (c :: w') ∧
        s'.token.type = classify (String.mk (c :: w'))) := by
  constructor
  · intro name
    by_cases h1 : name = "int" ∨ name = "char" ∨ name = "void" ∨ name = "signed" ∨
        name = "unsigned" ∨ name = "short" ∨ name = "long" ∨ name = "float" ∨
        name = "double"
    · have h2 : ¬(name = "const" ∨ name = "volatile") := by
        rcases h1 with h | h | h | h | h | h | h | h | h <;> subst h <;> decide
      simp [classify, h1, h2]
    · by_cases h2 : name = "const" ∨ name = "volatile"
      · simp [classify, h1, h2]
      · simp [classify, h1, h2]
  · intro s c w' d rest hi halpha hw hd hlen
    have hsp := isAlpha_not_isspace halpha
    simp only [get_token]
    rw [@skip_spaces_spec s [] c (w' ++ d :: rest) (by simpa using hi) (by simp) hsp]
    simp only [getchar_raw]
    rw [if_neg (show ¬c = ';' from fun hh => by subst hh; exact absurd halpha (by decide))]
    rw [if_pos halpha]
    set s2 : St := { s with input := w' ++ d :: rest, pos := s.pos - 1 + 1 } with hs2
    have hinput : (_ungetchar c s2).input = (c :: w') ++ (d :: rest) := by
      simp [_ungetchar, hs2]
    obtain ⟨s3, hok, hin3⟩ := get_id_go_ok (c :: w')
      ((_ungetchar c s2).input.length + 1) 0 [] (_ungetchar c s2) d rest
      hinput hw hd (by simpa using hlen) (by simp [hinput]; omega)
    simp only [get_id, hok, List.nil_append]
    exact ⟨_, rfl, rfl, rfl⟩

theorem C3_keyword_classification_witness :
    classify "int" = .TYPE ∧ classify "const" = .SPECIFIER ∧
    classify "foo" = .IDENTIFIER ∧
    (∃ s', get_token (initSt "foo;") = .ok s' ∧
      s'.token.name = "foo" ∧ s'.token.type = .IDENTIFIER) := by
  refine ⟨((C3_keyword_classification.1 "int").1).mpr (by tauto),
    ((C3_keyword_classification.1 "const").2.1).mpr (by tauto),
    ((C3_keyword_classification.1 "foo").2.2).mpr (by decide), ?_⟩
  obtain ⟨s', h1, h2, h3⟩ := C3_keyword_classification.2 (initSt "foo;")
    'f' ['o', 'o'] ';' [] (by decide) (by decide) (by decide) (by decide) (by decide)
  exact ⟨s', h1, h2, by rw [h3]; decide⟩

/-- C1: the declaration `int *x[];` is pronounced as
`x is array of pointer to int \n` on standard output, with exit status 0: the
alternating right/left resolution pronounces the array, then the pointer, then
the type. -/
theorem C1_pointer_array_of_int :
    run 30 "int *x[];" = some ⟨"x is array of pointer to int \n", "", 0⟩ := by
  decide

/-- C4 counterexample: for input `char *f();` the program prints the actual
identifier `f`, so the stdout is not the spec's literal
`x is function returning pointer to char \n`. -/
theorem C4_counterexample :
    (run 30 "char *f();").map Outcome.stdout =
      some "f is function returning pointer to char \n" ∧
    (run 30 "char *f();").map Outcome.stdout ≠
      some "x is function returning pointer to char \n" := by
  decide

/-- C4 (amended): for input `char *f();` the program writes exactly
`f is function returning pointer to char \n` to standard output and exits 0;
the parenthesized parameter list is consumed but contributes nothing beyond
the single `function returning` fragment. -/
theorem C4_function_returning_pointer :
    run 30 "char *f();" = some ⟨"f is function returning pointer to char \n", "", 0⟩ := by
  decide

/-- C10: for input `x;` (first token an identifier) the program prints the
partial phrase `x is ` on stdout and then dies with the stack-underflow
message and exit status 1, because the first left pass pops the already-empty
stack. -/
theorem C10_identifier_only_underflow :
    run 30 "x;" = some ⟨"x is ", "Stack underflow. Invalid declaration.\n", 1⟩ := by
  decide

/-- C6: pushing onto a full stack (`MAX_TOKENS` = 128 tokens held) is the
fatal declaration-too-long error; a successful push prepends the token with
nothing dropped or overwritten; at whole-program level, 129 pointer tokens end
the process with that message and a non-zero status. -/
theorem C6_stack_overflow_fatal :
    (∀ (s : St) (t : Token), MAX_TOKENS ≤ s.stack.length →
      stack_push t s =
        .error (.fatalMsg "Too long declaration. Can't proceed.\n" s.out)) ∧
    (∀ (s : St) (t : Token) (s' : St), stack_push t s = .ok s' →
      s'.stack = t :: s.stack) ∧
    run 210 (String.mk (List.replicate 129 '*')) =
      some ⟨"", "Too long declaration. Can't proceed.\n", 1⟩ := by
  refine ⟨?_, ?_, by decide⟩
  · intro s t h
    simp [stack_push, h]
  · intro s t s' h
    simp only [stack_push] at h
    split at h
    · simp at h
    · simp only [Except.ok.injEq] at h
      subst h
      rfl

theorem C6_stack_overflow_fatal_witness :
    stack_push ⟨.POINTER, "", 0⟩
        ⟨[], 1, 0, ⟨.TYPE, "", 0⟩, List.replicate 128 ⟨.POINTER, "", 0⟩, ""⟩ =
      .error (.fatalMsg "Too long declaration. Can't proceed.\n" "") ∧
    (∃ s', stack_push ⟨.TYPE, "int", 0⟩ (initSt "") = .ok s' ∧
      s'.stack = (⟨.TYPE, "int", 0⟩ : Token) :: (initSt "").stack) := by
  constructor
  · exact C6_stack_overflow_fatal.1
      ⟨[], 1, 0, ⟨.TYPE, "", 0⟩, List.replicate 128 ⟨.POINTER, "", 0⟩, ""⟩
      ⟨.POINTER, "", 0⟩ (by decide)
  · refine ⟨⟨[], 1, 0, ⟨.TYPE, "", 0⟩, [⟨.TYPE, "int", 0⟩], ""⟩, by decide, ?_⟩
    exact C6_stack_overflow_fatal.2.1 (initSt "") ⟨.TYPE, "int", 0⟩
      ⟨[], 1, 0, ⟨.TYPE, "", 0⟩, [⟨.TYPE, "int", 0⟩], ""⟩ (by decide)

/-- C7: evaluation of the code at the failing input.  The cursor does start at
line 1, column 0, but `skip_spaces` reads through plain `getchar` (which never
advances the cursor) while pushing the terminating character back through
`_ungetchar` (which decrements it), so after skipping the single leading space
of `" x;"` the column is -1 — not the value 1 that per-character increments
would give — and no character consumption has been counted at all. -/
theorem C7_skip_spaces_position_bug :
    (initSt " x;").line = 1 ∧ (initSt " x;").pos = 0 ∧
    skip_spaces (initSt " x;") = .ok ⟨['x', ';'], 1, -1, ⟨.TYPE, "", 0⟩, [], ""⟩ ∧
    ((-1 : Int) < 0) := by
  decide

theorem posMsg_head (l : Nat) (p : Int) (m : String) :
    (posMsg l p m).data.head? = some 'L' := by
  simp [posMsg, String.data_append]

theorem posMsg_ne_overflow_msg (l : Nat) (p : Int) (m : String) :
    posMsg l p m ≠ "Too long declaration. Can't proceed.\n" := by
  intro h
  have h1 : (posMsg l p m).data.head? =
      ("Too long declaration. Can't proceed.\n").data.head? := by rw [h]
  rw [posMsg_head] at h1
  have h2 : ("Too long declaration. Can't proceed.\n").data.head? = some 'T' := rfl
  rw [h2] at h1
  simp at h1

/-- C8 counterexample: the declaration-too-long fatal condition (129 pointer
tokens) prints `Too long declaration. Can't proceed.\n` on stderr, and that
message is not of the form `Line: <n>, Position: <p>: <message>` for any line,
position and message. -/
theorem C8_counterexample :
    (run 210 (String.mk (List.replicate 129 '*'))).map Outcome.stderr =
      some "Too long declaration. Can't proceed.\n" ∧
    ¬∃ l p m, "Too long declaration. Can't proceed.\n" = posMsg l p m := by
  constructor
  · decide
  · rintro ⟨l, p, m, hm⟩
    exact posMsg_ne_overflow_msg l p m hm.symm

/-- C8 (amended): fatal conditions raised through `fatal_pos` (unexpected end
of file, overlong token) carry the `Line: <n>, Position: <p>: <message>`
prefix on standard error, while the declaration-too-long and stack-underflow
conditions print their message without that prefix; in every case the process
terminates with the non-zero status 1 and the stdout produced so far. -/
theorem C8_fatal_diagnostics :
    (∀ s : St, s.input = [] → skip_spaces s =
      .error (.fatalMsg (posMsg s.line s.pos "Unexpected end of file\n") s.out)) ∧
    (∀ (s : St) (w : List Char) (rest : List Char), s.input = w ++ rest →
      (∀ x ∈ w, isIdChar x = true) → w.length = MAX_TOKEN_LEN + 1 →
      ∃ l p o, get_id s = .error
        (.fatalMsg (posMsg l p "Too long token occured. Can't proceed.\n") o)) ∧
    (∀ (s : St) (t : Token), MAX_TOKENS ≤ s.stack.length →
      stack_push t s =
        .error (.fatalMsg "Too long declaration. Can't proceed.\n" s.out)) ∧
    (∀ s : St, s.stack = [] → stack_pop s =
      .error (.fatalMsg "Stack underflow. Invalid declaration.\n" s.out)) ∧
    (∀ fuel inp m o, pronounce fuel (initSt inp) = .error (.fatalMsg m o) →
      run fuel inp = some ⟨o, m, 1⟩) := by
  refine ⟨?_, ?_, ?_, ?_, ?_⟩
  · intro s h
    simp [skip_spaces, h, skip_spaces_go, getchar_raw]
  · intro s w rest hi hw hlen
    unfold get_id
    exact get_id_go_overflow w (s.input.length + 1) 0 [] s rest hi hw
      (by omega) (by omega) (by simp [hi]; omega)
  · intro s t h
    simp [stack_push, h]
  · intro s h
    simp [stack_pop, h]
  · intro fuel inp m o h
    simp [run, h]

theorem C8_fatal_diagnostics_witness :
    skip_spaces (initSt "") =
      .error (.fatalMsg (posMsg 1 0 "Unexpected end of file\n") "") ∧
    (∃ l p o, get_id (initSt (String.mk (List.replicate 65 'b'))) = .error
      (.fatalMsg (posMsg l p "Too long token occured. Can't proceed.\n") o)) ∧
    stack_push ⟨.ARRAY, "", -1⟩
        ⟨[';'], 1, 2, ⟨.TYPE, "", 0⟩, List.replicate 128 ⟨.ARRAY, "", -1⟩, ""⟩ =
      .error (.fatalMsg "Too long declaration. Can't proceed.\n" "") ∧
    stack_pop (initSt "y;") =
      .error (.fatalMsg "Stack underflow. Invalid declaration.\n" "") ∧
    run 1 "" = some ⟨"", posMsg 1 0 "Unexpected end of file\n", 1⟩ := by
  refine ⟨C8_fatal_diagnostics.1 (initSt "") rfl,
    C8_fatal_diagnostics.2.1 (initSt (String.mk (List.replicate 65 'b')))
      (List.replicate 65 'b') [] (by decide) (by decide) (by decide),
    C8_fatal_diagnostics.2.2.1
      ⟨[';'], 1, 2, ⟨.TYPE, "", 0⟩, List.replicate 128 ⟨.ARRAY, "", -1⟩, ""⟩
      ⟨.ARRAY, "", -1⟩ (by decide),
    C8_fatal_diagnostics.2.2.2.1 (initSt "y;") rfl,
    C8_fatal_diagnostics.2.2.2.2 1 "" (posMsg 1 0 "Unexpected end of file\n") ""
      (by decide)⟩
